import Mathlib

/-!
# Verification of the SchwabGUI numerical engine against its specification

Shallow embedding of the numerical core of the SchwabGUI repository:
the implied-volatility solvers (`processing/iv_models/brent_bs.py`,
`processing/iv_models/grok.py`, `processing/iv_models/hybrid_one.py`),
the exposure aggregation (`processing/exposure_calculations/abso_expo.py`),
the gamma-flip detection (`processing/exposure_calculations/ratio.py`),
and the ranking engine (`processing/exposure_calculations/ranking.py`).

Modelling conventions:
* Python / numpy floating-point numbers are modelled as exact rationals `ℚ`.
* `None` and `np.nan` results are both modelled as `Option.none`; both denote
  a failed / absent value throughout this code base.
* Calls into external libraries (scipy's `brentq` and `newton`, numpy's
  `log` / `sqrt` / `exp` / `pi` and scipy's normal `cdf` / `pdf`) are not code
  of this repository; they are abstracted into a `RealPrims` bundle of
  function parameters.  Every theorem that touches them holds for an
  arbitrary bundle; witnesses instantiate the trivial bundle `trivPrims`.
* pandas column-wise operations are modelled row-wise; `df.groupby(k).sum()`
  is modelled by summing over the distinct keys in ascending key order,
  which is pandas' documented groupby ordering.
-/

namespace SchwabGUI

/-- numpy's `np.sign` on a rational: `1`, `-1` or `0`. -/
def qsign (q : ℚ) : Int :=
  if 0 < q then 1 else if q < 0 then -1 else 0

/-- Python truthiness of an optional float: `None` and `0.0` are falsy. -/
def pyTruthy : Option ℚ → Bool
  | none => false
  | some x => x != 0

/-- Python's `a or b` on optional floats: yields `a` when `a` is truthy,
otherwise `b`. -/
def pyOr (a b : Option ℚ) : Option ℚ :=
  if pyTruthy a then a else b

/-- Python's builtin `round` to an integer: round half to even
(banker's rounding), which is the IEEE-754 behaviour Python implements. -/
def roundHalfEven (q : ℚ) : Int :=
  let n : Int := ⌊q⌋
  let f : ℚ := q - n
  if f < 1/2 then n
  else if 1/2 < f then n + 1
  else if Even n then n else n + 1

/-- Python's `round(x, 3)` used by `abso_expo.calculate_exposures`. -/
def round3 (q : ℚ) : ℚ :=
  (roundHalfEven (q * 1000) : ℚ) / 1000

/-- `ranking.calculate_theo_es`: `round(theo_price * 4) / 4`. -/
def roundQuarter (q : ℚ) : ℚ :=
  (roundHalfEven (q * 4) : ℚ) / 4

/-- Abstract bundle for the external mathematical primitives used by the
Python sources (numpy / scipy).  `brentq f a b xtol` returns `none` when
scipy's `brentq` raises (in particular when `f a` and `f b` do not bracket a
root); `newton f x0 fprime tol maxiter` returns `none` when scipy's `newton`
raises on non-convergence / overflow / zero-division. -/
structure RealPrims where
  log : ℚ → ℚ
  sqrt : ℚ → ℚ
  exp : ℚ → ℚ
  cdf : ℚ → ℚ
  pdf : ℚ → ℚ
  pi : ℚ
  brentq : (ℚ → Option ℚ) → ℚ → ℚ → ℚ → Option ℚ
  newton : (ℚ → Option ℚ) → ℚ → (ℚ → Option ℚ) → ℚ → Nat → Option ℚ

/-- A trivial instantiation of the primitive bundle, used to evaluate
theorems whose conclusions do not depend on the primitives. -/
def trivPrims : RealPrims where
  log := fun _ => 0
  sqrt := fun _ => 0
  exp := fun _ => 0
  cdf := fun _ => 0
  pdf := fun _ => 0
  pi := 0
  brentq := fun _ _ _ _ => none
  newton := fun _ _ _ _ _ => none

/-- The option type of a contract row (the code compares the `putCall`
column against the strings `"CALL"` / `"PUT"`, case-insensitively where it
calls `.upper()`). -/
inductive OptType where
  | CALL
  | PUT
deriving DecidableEq, Repr

/-- The seven Greeks as plain values (the dictionaries built by
`grok.calculate_greeks` and `hybrid_one.calculate_greeks`, which either
return a fully numeric dict or `None` as a whole). -/
structure GreeksQ where
  delta : ℚ
  gamma : ℚ
  vega : ℚ
  theta : ℚ
  rho : ℚ
  vanna : ℚ
  charm : ℚ
deriving DecidableEq, Repr

/-- One input row of the option-chain table (`SPX_Option_Chain.xlsx`).
`Option` fields model columns that may be absent / null; `expirationDate`
is a date ordinal. -/
structure InputRow where
  expirationDate : Int
  spotPrice : Option ℚ
  strikePrice : Option ℚ
  T : Option ℚ
  SOFR : Option ℚ
  mid : Option ℚ
  mark : Option ℚ
  last : Option ℚ
  openInterest : Option ℚ
  putCall : Option OptType

/-- A processed row: the input augmented with the solved implied
volatility and the Greeks (`process_row` in `grok.py` / `hybrid_one.py`
merges these keys into the row dict). -/
structure ProcessedRow where
  impliedVolatility : ℚ
  greeks : GreeksQ
  expirationDate : Int

/-- Modelled from the spec (for comparison with the code's selection):
"market price (first available of mid/mark/last)" — the first of the
`mid`, `mark`, `last` fields that is present. -/
def specFirstAvailable (row : InputRow) : Option ℚ :=
  match row.mid with
  | some x => some x
  | none =>
    match row.mark with
    | some x => some x
    | none => row.last

end SchwabGUI

namespace SchwabGUI.RatioModule

/-!
## `processing/exposure_calculations/ratio.py` — gamma flip detection

`process_file` groups the `GEX` column by `strikePrice`, sums it, sorts the
strikes in descending order, takes the cumulative sum, and then locates the
flip twice: by an iterative scan (`cum_gam`) and by a vectorized
sign-change scan (`vec_gam`).
-/

open SchwabGUI

/-- Distinct strike prices of the rows, ascending (pandas `groupby` sorts
its keys ascending). -/
def strikesAsc (rows : List (ℚ × ℚ)) : List ℚ :=
  List.insertionSort (· ≤ ·) (rows.map Prod.fst).dedup

/-- `df.groupby("strikePrice")["GEX"].sum()` followed by
`.sort_index(ascending=False)`: per-strike sums, strikes descending. -/
def gexByStrikeDesc (rows : List (ℚ × ℚ)) : List (ℚ × ℚ) :=
  (strikesAsc rows).reverse.map
    (fun s => (s, ((rows.filter (fun r => r.1 = s)).map Prod.snd).sum))

/-- Cumulative sums (`Series.cumsum`) of the per-strike values, keeping the
strike of each entry, starting from accumulator `acc`. -/
def cumFrom (acc : ℚ) : List (ℚ × ℚ) → List (ℚ × ℚ)
  | [] => []
  | (s, v) :: t => (s, acc + v) :: cumFrom (acc + v) t

/-- The cumulative GEX series of `process_file` (strikes descending). -/
def cumulativeGex (rows : List (ℚ × ℚ)) : List (ℚ × ℚ) :=
  cumFrom 0 (gexByStrikeDesc rows)

/-- The iterative scan of `process_file` (`cum_gam`): walk the cumulative
series, and at the first adjacent pair whose previous value is `> 0` and
whose current value is `< 0`, interpolate
`prev_strike - (prev / (prev - curr)) * (prev_strike - strike)`. -/
def cumGam : List (ℚ × ℚ) → Option ℚ
  | p :: q :: t =>
      if 0 < p.2 ∧ q.2 < 0 then
        some (p.1 - p.2 / (p.2 - q.2) * (p.1 - q.1))
      else
        cumGam (q :: t)
  | _ => none

/-- The vectorized scan of `process_file` (`vec_gam`): the first index where
`np.diff(np.sign(totalGamma))` is nonzero, with the same interpolation
formula applied there. -/
def vecGam : List (ℚ × ℚ) → Option ℚ
  | p :: q :: t =>
      if qsign p.2 ≠ qsign q.2 then
        some (p.1 - p.2 / (p.2 - q.2) * (p.1 - q.1))
      else
        vecGam (q :: t)
  | _ => none

/-- `cum_gam` as computed by `process_file` from raw `(strike, GEX)` rows. -/
def gammaFlipCum (rows : List (ℚ × ℚ)) : Option ℚ :=
  cumGam (cumulativeGex rows)

/-- `vec_gam` as computed by `process_file` from raw `(strike, GEX)` rows. -/
def gammaFlipVec (rows : List (ℚ × ℚ)) : Option ℚ :=
  vecGam (cumulativeGex rows)

end SchwabGUI.RatioModule

namespace SchwabGUI.RatioModule

/-! ### Helper lemmas about the two flip scans -/

theorem qsign_pos {q : ℚ} (h : 0 < q) : qsign q = 1 := by
  simp [qsign, h]

theorem qsign_neg {q : ℚ} (h : q < 0) : qsign q = -1 := by
  simp [qsign, h, not_lt_of_lt, asymm h]

/-- Every entry of a cumulative sum of positive values, started from a
nonnegative accumulator, is positive. -/
theorem cumFrom_all_pos :
    ∀ (l : List (ℚ × ℚ)) (acc : ℚ), 0 ≤ acc → (∀ p ∈ l, 0 < p.2) →
      ∀ q ∈ cumFrom acc l, 0 < q.2
  | [], _, _, _ => by intro q hq; simp [cumFrom] at hq
  | (s, v) :: t, acc, hacc, hl => by
      intro q hq
      have hv : 0 < v := hl (s, v) (List.mem_cons_self _ _)
      rw [cumFrom] at hq
      rcases List.mem_cons.1 hq with h | h
      · subst h; simpa using add_pos_of_nonneg_of_pos hacc hv
      · exact cumFrom_all_pos t (acc + v) (le_of_lt (add_pos_of_nonneg_of_pos hacc hv))
          (fun p hp => hl p (List.mem_cons_of_mem _ hp)) q h

/-- Every entry of a cumulative sum of negative values, started from a
nonpositive accumulator, is negative. -/
theorem cumFrom_all_neg :
    ∀ (l : List (ℚ × ℚ)) (acc : ℚ), acc ≤ 0 → (∀ p ∈ l, p.2 < 0) →
      ∀ q ∈ cumFrom acc l, q.2 < 0
  | [], _, _, _ => by intro q hq; simp [cumFrom] at hq
  | (s, v) :: t, acc, hacc, hl => by
      intro q hq
      have hv : v < 0 := hl (s, v) (List.mem_cons_self _ _)
      rw [cumFrom] at hq
      rcases List.mem_cons.1 hq with h | h
      · subst h; simpa using add_neg_of_nonpos_of_neg hacc hv
      · exact cumFrom_all_neg t (acc + v) (le_of_lt (add_neg_of_nonpos_of_neg hacc hv))
          (fun p hp => hl p (List.mem_cons_of_mem _ hp)) q h

/-- The iterative scan finds nothing on an all-positive series. -/
theorem cumGam_none_of_all_pos :
    ∀ l : List (ℚ × ℚ), (∀ p ∈ l, 0 < p.2) → cumGam l = none
  | [], _ => rfl
  | [_], _ => rfl
  | p :: q :: t, h => by
      have hq : 0 < q.2 := h q (List.mem_cons_of_mem _ (List.mem_cons_self _ _))
      rw [cumGam, if_neg (by simp [not_and, asymm hq])]
      exact cumGam_none_of_all_pos (q :: t)
        (fun x hx => h x (List.mem_cons_of_mem _ hx))

/-- The iterative scan finds nothing on an all-negative series. -/
theorem cumGam_none_of_all_neg :
    ∀ l : List (ℚ × ℚ), (∀ p ∈ l, p.2 < 0) → cumGam l = none
  | [], _ => rfl
  | [_], _ => rfl
  | p :: q :: t, h => by
      have hp : p.2 < 0 := h p (List.mem_cons_self _ _)
      rw [cumGam, if_neg (by simp [asymm hp])]
      exact cumGam_none_of_all_neg (q :: t)
        (fun x hx => h x (List.mem_cons_of_mem _ hx))

/-- The vectorized scan finds nothing when all entries have the same
`np.sign`. -/
theorem vecGam_none_of_const_sign :
    ∀ (l : List (ℚ × ℚ)) (s : Int), (∀ p ∈ l, qsign p.2 = s) → vecGam l = none
  | [], _, _ => rfl
  | [_], _, _ => rfl
  | p :: q :: t, s, h => by
      have hp : qsign p.2 = s := h p (List.mem_cons_self _ _)
      have hq : qsign q.2 = s := h q (List.mem_cons_of_mem _ (List.mem_cons_self _ _))
      rw [vecGam, if_neg (by simp [hp, hq])]
      exact vecGam_none_of_const_sign (q :: t) s
        (fun x hx => h x (List.mem_cons_of_mem _ hx))

/-- On a series that is a block of positives followed by a block of
negatives, both scans fire at the junction and produce the same
interpolated value. -/
theorem cumGam_eq_vecGam_of_pos_neg_split :
    ∀ (L₁ L₂ : List (ℚ × ℚ)), L₁ ≠ [] → L₂ ≠ [] →
      (∀ p ∈ L₁, 0 < p.2) → (∀ q ∈ L₂, q.2 < 0) →
      ∃ v, cumGam (L₁ ++ L₂) = some v ∧ vecGam (L₁ ++ L₂) = some v
  | [], _, h₁, _, _, _ => absurd rfl h₁
  | [a], L₂, _, h₂, hpos, hneg => by
      match L₂, h₂ with
      | b :: t, _ =>
        have ha : 0 < a.2 := hpos a (List.mem_cons_self _ _)
        have hb : b.2 < 0 := hneg b (List.mem_cons_self _ _)
        refine ⟨a.1 - a.2 / (a.2 - b.2) * (a.1 - b.1), ?_, ?_⟩
        · rw [List.cons_append, List.nil_append, cumGam, if_pos ⟨ha, hb⟩]
        · rw [List.cons_append, List.nil_append, vecGam,
            if_pos (by rw [qsign_pos ha, qsign_neg hb]; decide)]
  | a :: a' :: t, L₂, _, h₂, hpos, hneg => by
      have ha : 0 < a.2 := hpos a (List.mem_cons_self _ _)
      have ha' : 0 < a'.2 := hpos a' (List.mem_cons_of_mem _ (List.mem_cons_self _ _))
      obtain ⟨v, hc, hv⟩ := cumGam_eq_vecGam_of_pos_neg_split (a' :: t) L₂
        (List.cons_ne_nil _ _) h₂
        (fun x hx => hpos x (List.mem_cons_of_mem _ hx)) hneg
      refine ⟨v, ?_, ?_⟩
      · rw [List.cons_append, List.cons_append, cumGam,
          if_neg (by simp [not_and, asymm ha']), ← List.cons_append]
        exact hc
      · rw [List.cons_append, List.cons_append, vecGam,
          if_neg (by simp [qsign_pos ha, qsign_pos ha']), ← List.cons_append]
        exact hv

end SchwabGUI.RatioModule

open SchwabGUI SchwabGUI.RatioModule in
/-- C1 (counterexample): on the per-strike GEX input
`[+50, +20, -10, -40]` at strikes `[105, 104, 103, 102]`, the code first
takes the cumulative sum `[50, 70, 60, 20]`, which never changes sign, so
both flip algorithms return `None` — not the interpolated strike
`104 - (20/(20-(-10)))*(104-103) = 310/3` the claim asserts. -/
theorem C1_flip_example_returns_none :
    gammaFlipCum [(105, 50), (104, 20), (103, -10), (102, -40)] = none ∧
    gammaFlipVec [(105, 50), (104, 20), (103, -10), (102, -40)] = none ∧
    cumulativeGex [(105, 50), (104, 20), (103, -10), (102, -40)] =
      [(105, 50), (104, 70), (103, 60), (102, 20)] := by
  refine ⟨?_, ?_, ?_⟩ <;>
    norm_num [gammaFlipCum, gammaFlipVec, cumulativeGex, gexByStrikeDesc, strikesAsc,
      cumFrom, cumGam, vecGam, List.insertionSort, List.orderedInsert, List.dedup,
      List.pwFilter, List.filter, qsign]

open SchwabGUI SchwabGUI.RatioModule in
/-- C1 (amended): for the per-strike GEX input whose *cumulative* series is
`[+50, +20, -10, -40]` at strikes `[105, 104, 103, 102]` — i.e. per-strike
GEX `[+50, -30, -30, -30]` — both flip algorithms return the interpolated
flip strike `104 - (20/(20-(-10)))*(104-103) = 310/3 ≈ 103.33`. -/
theorem C1_flip_example_amended :
    cumulativeGex [(105, 50), (104, -30), (103, -30), (102, -30)] =
      [(105, 50), (104, 20), (103, -10), (102, -40)] ∧
    gammaFlipCum [(105, 50), (104, -30), (103, -30), (102, -30)] = some (310/3) ∧
    gammaFlipVec [(105, 50), (104, -30), (103, -30), (102, -30)] = some (310/3) ∧
    (310/3 : ℚ) = 104 - 20 / (20 - (-10)) * (104 - 103) := by
  refine ⟨?_, ?_, ?_, by norm_num⟩ <;>
    norm_num [gammaFlipCum, gammaFlipVec, cumulativeGex, gexByStrikeDesc, strikesAsc,
      cumFrom, cumGam, vecGam, List.insertionSort, List.orderedInsert, List.dedup,
      List.pwFilter, List.filter, qsign]

open SchwabGUI SchwabGUI.RatioModule in
/-- C4 (counterexample): the per-strike GEX series `[-10, +30]` at strikes
`[105, 104]` has cumulative series `[-10, +20]`, which is monotonic
(non-decreasing) and changes sign exactly once (its two entries have
`np.sign` `-1` and `1`); yet the iterative scan returns `None` (it only
fires on a positive-to-negative transition) while the vectorized scan
returns the interpolated strike `314/3`, so the two methods do not agree. -/
theorem C4_flip_methods_disagree_on_single_crossing :
    cumulativeGex [(105, -10), (104, 30)] = [(105, -10), (104, 20)] ∧
    (-10 : ℚ) ≤ 20 ∧
    qsign (-10) = -1 ∧ qsign 20 = 1 ∧
    gammaFlipCum [(105, -10), (104, 30)] = none ∧
    gammaFlipVec [(105, -10), (104, 30)] = some (314/3) := by
  refine ⟨?_, by norm_num, by norm_num [qsign], by norm_num [qsign], ?_, ?_⟩ <;>
    norm_num [gammaFlipCum, gammaFlipVec, cumulativeGex, gexByStrikeDesc, strikesAsc,
      cumFrom, cumGam, vecGam, List.insertionSort, List.orderedInsert, List.dedup,
      List.pwFilter, List.filter, qsign]

open SchwabGUI SchwabGUI.RatioModule in
/-- C4 (amended): on every per-strike GEX series whose cumulative
(high-to-low) sum consists of a nonempty block of strictly positive values
followed by a nonempty block of strictly negative values — i.e. it changes
sign exactly once, from positive to negative, with no entry exactly zero
(in particular every monotonically decreasing single-crossing series
without zero entries) — the iterative method and the vectorized method
return the same non-null flip strike. -/
theorem C4_flip_methods_agree_amended (rows L₁ L₂ : List (ℚ × ℚ))
    (hsplit : cumulativeGex rows = L₁ ++ L₂)
    (h₁ : L₁ ≠ []) (h₂ : L₂ ≠ [])
    (hpos : ∀ p ∈ L₁, 0 < p.2) (hneg : ∀ q ∈ L₂, q.2 < 0) :
    ∃ v, gammaFlipCum rows = some v ∧ gammaFlipVec rows = some v := by
  obtain ⟨v, hc, hv⟩ := cumGam_eq_vecGam_of_pos_neg_split L₁ L₂ h₁ h₂ hpos hneg
  exact ⟨v, by rw [gammaFlipCum, hsplit]; exact hc,
            by rw [gammaFlipVec, hsplit]; exact hv⟩

open SchwabGUI SchwabGUI.RatioModule in
/-- Witness for C4 (amended): the series `[+50, -30, -30]` at strikes
`[105, 104, 103]` has cumulative series `[50, 20, -10]`, a positive block
followed by a negative block; both methods return `310/3`. -/
theorem C4_flip_methods_agree_amended_witness :
    ∃ v, gammaFlipCum [(105, 50), (104, -30), (103, -30)] = some v ∧
         gammaFlipVec [(105, 50), (104, -30), (103, -30)] = some v :=
  C4_flip_methods_agree_amended [(105, 50), (104, -30), (103, -30)]
    [(105, 50), (104, 20)] [(103, -10)]
    (by norm_num [cumulativeGex, gexByStrikeDesc, strikesAsc, cumFrom,
      List.insertionSort, List.orderedInsert, List.dedup, List.pwFilter, List.filter])
    (by simp) (by simp)
    (by
      intro p hp
      simp only [List.mem_cons, List.not_mem_nil, or_false] at hp
      rcases hp with rfl | rfl <;> norm_num)
    (by
      intro q hq
      simp only [List.mem_cons, List.not_mem_nil, or_false] at hq
      rcases hq with rfl
      norm_num)

open SchwabGUI SchwabGUI.RatioModule in
/-- C6 (confirmed): when all per-strike aggregated GEX values share one
strict sign (all positive or all negative), the cumulative series never
changes sign and both gamma-flip methods return `None` — never a numeric
strike. -/
theorem C6_no_flip_when_one_sign (rows : List (ℚ × ℚ))
    (h : (∀ p ∈ gexByStrikeDesc rows, 0 < p.2) ∨
         (∀ p ∈ gexByStrikeDesc rows, p.2 < 0)) :
    gammaFlipCum rows = none ∧ gammaFlipVec rows = none := by
  rcases h with h | h
  · have hall : ∀ q ∈ cumulativeGex rows, 0 < q.2 :=
      cumFrom_all_pos (gexByStrikeDesc rows) 0 le_rfl h
    exact ⟨cumGam_none_of_all_pos _ hall,
      vecGam_none_of_const_sign _ 1 (fun p hp => qsign_pos (hall p hp))⟩
  · have hall : ∀ q ∈ cumulativeGex rows, q.2 < 0 :=
      cumFrom_all_neg (gexByStrikeDesc rows) 0 le_rfl h
    exact ⟨cumGam_none_of_all_neg _ hall,
      vecGam_none_of_const_sign _ (-1) (fun p hp => qsign_neg (hall p hp))⟩

open SchwabGUI SchwabGUI.RatioModule in
/-- Witness for C6: on the all-positive per-strike series
`[(100, 5), (101, 7)]` both methods return `None`. -/
theorem C6_no_flip_when_one_sign_witness :
    gammaFlipCum [(100, 5), (101, 7)] = none ∧
    gammaFlipVec [(100, 5), (101, 7)] = none :=
  C6_no_flip_when_one_sign [(100, 5), (101, 7)]
    (Or.inl (by
      intro p hp
      have : gexByStrikeDesc [((100:ℚ), (5:ℚ)), (101, 7)] = [(101, 7), (100, 5)] := by
        norm_num [gexByStrikeDesc, strikesAsc, List.insertionSort, List.orderedInsert,
          List.dedup, List.pwFilter, List.filter]
      rw [this] at hp
      simp only [List.mem_cons, List.not_mem_nil, or_false] at hp
      rcases hp with rfl | rfl <;> norm_num))

namespace SchwabGUI.BrentBS

/-!
## `processing/iv_models/brent_bs.py` — bracketing (Brent) solver
-/

open SchwabGUI

/-- Greeks as returned by `brent_bs.calculate_greeks`: a dict whose values
may individually be `None` (the degenerate-input branch returns a dict of
`None`s). -/
structure Greeks where
  delta : Option ℚ
  gamma : Option ℚ
  vega : Option ℚ
  theta : Option ℚ
  rho : Option ℚ
  vanna : Option ℚ
  charm : Option ℚ
deriving DecidableEq, Repr

/-- The all-`None` Greeks dict of the degenerate branch. -/
def noneGreeks : Greeks := ⟨none, none, none, none, none, none, none⟩

/-- `brent_bs.calculate_greeks`: Black-Scholes Greeks with the near-expiry
adjustment.  The Python chained conditional
`1.0 if S > K else 0.0 if option_type == "CALL" else -1.0` parses as
`1.0 if S > K else (0.0 if option_type == "CALL" else -1.0)`, which is
reproduced verbatim here. -/
def calculate_greeks (P : RealPrims) (S K T r sigma : ℚ) (option_type : OptType) :
    Greeks :=
  if T ≤ 0 ∨ sigma ≤ 0 then noneGreeks
  else
    let d1 := (P.log (S / K) + (r + 1/2 * sigma ^ 2) * T) / (sigma * P.sqrt T)
    let d2 := d1 - sigma * P.sqrt T
    let gamma : ℚ := if T < 1/1000000 then 1/100000
      else P.pdf d1 / (S * sigma * P.sqrt T)
    let delta : ℚ := if T < 1/1000000 then
        (if S > K then 1 else if option_type = OptType.CALL then 0 else -1)
      else (if option_type = OptType.CALL then P.cdf d1 else P.cdf d1 - 1)
    let vega := S * P.pdf d1 * P.sqrt T
    let theta_call := (-S * P.pdf d1 * sigma) / (2 * P.sqrt T)
      - r * K * P.exp (-r * T) * P.cdf d2
    let theta_put := (-S * P.pdf d1 * sigma) / (2 * P.sqrt T)
      + r * K * P.exp (-r * T) * P.cdf (-d2)
    let theta := if option_type = OptType.CALL then theta_call else theta_put
    let rho_call := K * T * P.exp (-r * T) * P.cdf d2
    let rho_put := -K * T * P.exp (-r * T) * P.cdf (-d2)
    let rho := if option_type = OptType.CALL then rho_call else rho_put
    let vanna := d2 * S * P.pdf d1 / sigma
    let charm := -P.pdf d1 * (2 * r * T - d2 * sigma * P.sqrt T)
      / (2 * T * sigma * P.sqrt T)
    ⟨some delta, some gamma, some vega, some theta, some rho, some vanna, some charm⟩

/-- The Black-Scholes price defined inside
`brent_bs.calculate_implied_volatility` (the `option_type` match is
exhaustive over `CALL` / `PUT`). -/
def black_scholes_price (P : RealPrims) (S K T r sigma : ℚ) :
    OptType → ℚ
  | OptType.CALL =>
      let d1 := (P.log (S / K) + (r + 1/2 * sigma ^ 2) * T) / (sigma * P.sqrt T)
      let d2 := d1 - sigma * P.sqrt T
      S * P.cdf d1 - K * P.exp (-r * T) * P.cdf d2
  | OptType.PUT =>
      let d1 := (P.log (S / K) + (r + 1/2 * sigma ^ 2) * T) / (sigma * P.sqrt T)
      let d2 := d1 - sigma * P.sqrt T
      K * P.exp (-r * T) * P.cdf (-d2) - S * P.cdf (-d1)

/-- `brent_bs.calculate_implied_volatility`: guard against non-positive
inputs, then bracketed root finding over `[1e-6, 10]` with `xtol = 1e-5`. -/
def calculate_implied_volatility (P : RealPrims)
    (market_price S K T r : ℚ) (option_type : OptType) : Option ℚ :=
  if S ≤ 0 ∨ K ≤ 0 ∨ T ≤ 0 ∨ market_price ≤ 0 then none
  else
    P.brentq (fun sigma =>
        some (black_scholes_price P S K T r sigma option_type - market_price))
      (1/1000000) 10 (1/100000)

/-- The market price used by the row loop of
`brent_bs.brent_bs_adjusted_processing`: `row.get("last", None)` — the
`last` column only. -/
def marketPrice (row : InputRow) : Option ℚ :=
  row.last

end SchwabGUI.BrentBS

namespace SchwabGUI.HybridOne

/-!
## `processing/iv_models/hybrid_one.py` — closed-form estimate + refinement
-/

open SchwabGUI

/-- The intrinsic value computed inside `hybrid_one.closed_form_iv`:
`max(0, S - K)` for calls, `max(0, K - S)` for puts. -/
def intrinsicValue (option_type : OptType) (S K : ℚ) : ℚ :=
  match option_type with
  | OptType.CALL => max 0 (S - K)
  | OptType.PUT => max 0 (K - S)

/-- `hybrid_one.closed_form_iv`: `np.nan` (here `none`) on non-positive
inputs, exactly `0.0` when the observed price is at or below intrinsic
value, otherwise the first-order moneyness / time-value estimate. -/
def closed_form_iv (P : RealPrims) (S K T r : ℚ) (option_type : OptType)
    (observed_price : ℚ) : Option ℚ :=
  if observed_price ≤ 0 ∨ S ≤ 0 ∨ K ≤ 0 ∨ T ≤ 0 then none
  else if observed_price ≤ intrinsicValue option_type S K then some 0
  else
    let moneyness := P.log (S / K)
    let volatility_estimate := observed_price / S * P.sqrt (2 * P.pi / T)
    let adjustment :=
      (match option_type with
        | OptType.CALL => moneyness
        | OptType.PUT => -moneyness) / volatility_estimate
      + r * P.sqrt T / volatility_estimate
    some (max (volatility_estimate * (1 + adjustment)) 0)

/-- `hybrid_one.black_scholes_price`: `np.nan` (here `none`) on
non-positive inputs, else the standard Black-Scholes price (the
`option_type` match is exhaustive over `CALL` / `PUT`). -/
def black_scholes_price (P : RealPrims) (S K T r sigma : ℚ)
    (option_type : OptType) : Option ℚ :=
  if S ≤ 0 ∨ K ≤ 0 ∨ T ≤ 0 ∨ sigma ≤ 0 then none
  else
    let d1 := (P.log (S / K) + (r + 1/2 * sigma ^ 2) * T) / (sigma * P.sqrt T)
    let d2 := d1 - sigma * P.sqrt T
    match option_type with
    | OptType.CALL => some (S * P.cdf d1 - K * P.exp (-r * T) * P.cdf d2)
    | OptType.PUT => some (K * P.exp (-r * T) * P.cdf (-d2) - S * P.cdf (-d1))

/-- `hybrid_one.refine_iv`: bracketed refinement inside
`[max(1e-6, 0.5*iv), min(5.0, max(1.0, 1.5*iv))]` with `xtol = 1e-8`;
on any failure the unrefined estimate is returned. -/
def refine_iv (P : RealPrims) (S K T r : ℚ) (option_type : OptType)
    (observed_price initial_iv : ℚ) : ℚ :=
  let lower_bound := max (1/1000000) (initial_iv * (1/2))
  let upper_bound := min 5 (max 1 (initial_iv * (3/2)))
  match P.brentq (fun sigma =>
      (black_scholes_price P S K T r sigma option_type).map
        (fun p => p - observed_price))
    lower_bound upper_bound (1/100000000) with
  | some refined => refined
  | none => initial_iv

/-- `hybrid_one.calculate_greeks`: `None` on non-positive inputs, else the
full dict; vanna uses the simplified proxy `d1 * gamma`. -/
def calculate_greeks (P : RealPrims) (S K T r sigma : ℚ)
    (option_type : OptType) : Option GreeksQ :=
  if S ≤ 0 ∨ K ≤ 0 ∨ T ≤ 0 ∨ sigma ≤ 0 then none
  else
    let d1 := (P.log (S / K) + (r + 1/2 * sigma ^ 2) * T) / (sigma * P.sqrt T)
    let d2 := d1 - sigma * P.sqrt T
    let delta := if option_type = OptType.CALL then P.cdf d1 else P.cdf d1 - 1
    let gamma := P.pdf d1 / (S * sigma * P.sqrt T)
    let vega := S * P.pdf d1 * P.sqrt T
    let theta_call := (-S * P.pdf d1 * sigma) / (2 * P.sqrt T)
      - r * K * P.exp (-r * T) * P.cdf d2
    let theta_put := (-S * P.pdf d1 * sigma) / (2 * P.sqrt T)
      + r * K * P.exp (-r * T) * P.cdf (-d2)
    let theta := if option_type = OptType.CALL then theta_call else theta_put
    let rho_call := K * T * P.exp (-r * T) * P.cdf d2
    let rho_put := -K * T * P.exp (-r * T) * P.cdf (-d2)
    let rho := if option_type = OptType.CALL then rho_call else rho_put
    let vanna := d1 * gamma
    let charm := -P.pdf d1 * ((2 * r * T - d2 * sigma * P.sqrt T) / (2 * T))
    some ⟨delta, gamma, vega, theta, rho, vanna, charm⟩

/-- The market price selected by `hybrid_one.process_row`:
`row.get("mid") or row.get("mark") or row.get("last")` (Python `or`, so a
present-but-zero value falls through). -/
def market_price (row : InputRow) : Option ℚ :=
  pyOr row.mid (pyOr row.mark row.last)

/-- `hybrid_one.process_row`: extract the fields, reject any missing or
non-positive required input, then solve (closed form + refinement) and
compute Greeks.  A `none` from `closed_form_iv` can only arise from inputs
already rejected by the guard, so that branch is dead; it is mapped to the
row being skipped. -/
def process_row (P : RealPrims) (row : InputRow) (_today : Int) :
    Option ProcessedRow :=
  match row.spotPrice, row.strikePrice, row.T, row.SOFR,
      market_price row, row.putCall with
  | some S, some K, some T, some r, some mp, some option_type =>
      if S ≤ 0 ∨ K ≤ 0 ∨ T ≤ 0 ∨ r ≤ 0 ∨ mp ≤ 0 then none
      else
        match closed_form_iv P S K T r option_type mp with
        | none => none
        | some initial_iv =>
          let refined_iv := refine_iv P S K T r option_type mp initial_iv
          match calculate_greeks P S K T r refined_iv option_type with
          | none => none
          | some greeks => some ⟨refined_iv, greeks, row.expirationDate⟩
  | _, _, _, _, _, _ => none

end SchwabGUI.HybridOne

namespace SchwabGUI.Grok

/-!
## `processing/iv_models/grok.py` — derivative-guided (Newton) solver
-/

open SchwabGUI

/-- The value computed by `grok.d1` when its guard passes: sigma is capped
at 10 before use. -/
def d1val (P : RealPrims) (S K T r sigma : ℚ) : ℚ :=
  let capped_sigma := min sigma 10
  (P.log (S / K) + (r + 1/2 * capped_sigma ^ 2) * T) / (capped_sigma * P.sqrt T)

/-- `grok.d1`: `np.nan` (here `none`) when `sigma ≤ 0` or `T ≤ 0`. -/
def d1 (P : RealPrims) (S K T r sigma : ℚ) : Option ℚ :=
  if sigma ≤ 0 ∨ T ≤ 0 then none else some (d1val P S K T r sigma)

/-- `grok.d2 = d1 - sigma * sqrt(T)` (with the uncapped sigma). -/
def d2 (P : RealPrims) (S K T r sigma : ℚ) : Option ℚ :=
  (d1 P S K T r sigma).map (fun v => v - sigma * P.sqrt T)

/-- `grok.black_scholes`: propagates the `nan` of `d1` / `d2`; the
`option_type` match is exhaustive over `CALL` / `PUT`. -/
def black_scholes (P : RealPrims) (S K T r sigma : ℚ)
    (option_type : OptType) : Option ℚ :=
  match d1 P S K T r sigma, d2 P S K T r sigma with
  | some d1_val, some d2_val =>
      match option_type with
      | OptType.CALL => some (S * P.cdf d1_val - K * P.exp (-r * T) * P.cdf d2_val)
      | OptType.PUT => some (K * P.exp (-r * T) * P.cdf (-d2_val) - S * P.cdf (-d1_val))
  | _, _ => none

/-- `grok.implied_volatility`: Newton's method from `0.5` with the
analytic vega as derivative, tolerance `1e-6`, at most 100 iterations; a
result above the cap 10 or non-positive is discarded as invalid
(`np.nan`, here `none`). -/
def implied_volatility (P : RealPrims) (price S K T r : ℚ)
    (option_type : OptType) : Option ℚ :=
  let vega := fun sigma =>
    (d1 P S K T r sigma).map (fun v => S * P.pdf v * P.sqrt T)
  match P.newton
      (fun x => (black_scholes P S K T r x option_type).map (fun p => p - price))
      (1/2) vega (1/1000000) 100 with
  | none => none
  | some sigma_est =>
      if sigma_est > 10 ∨ sigma_est ≤ 0 then none else some sigma_est

/-- `grok.calculate_greeks`: `None` on non-positive inputs; under the
guard `grok.d1` returns its formula value, used here directly. -/
def calculate_greeks (P : RealPrims) (S K T r sigma : ℚ)
    (option_type : OptType) : Option GreeksQ :=
  if sigma ≤ 0 ∨ S ≤ 0 ∨ K ≤ 0 ∨ T ≤ 0 then none
  else
    let d1_val := d1val P S K T r sigma
    let d2_val := d1_val - sigma * P.sqrt T
    let delta := if option_type = OptType.CALL then P.cdf d1_val else P.cdf d1_val - 1
    let gamma := P.pdf d1_val / (S * sigma * P.sqrt T)
    let vega := S * P.pdf d1_val * P.sqrt T
    let theta_call := (-S * P.pdf d1_val * sigma) / (2 * P.sqrt T)
      - r * K * P.exp (-r * T) * P.cdf d2_val
    let theta_put := (-S * P.pdf d1_val * sigma) / (2 * P.sqrt T)
      + r * K * P.exp (-r * T) * P.cdf (-d2_val)
    let theta := if option_type = OptType.CALL then theta_call else theta_put
    let rho_call := K * T * P.exp (-r * T) * P.cdf d2_val
    let rho_put := -K * T * P.exp (-r * T) * P.cdf (-d2_val)
    let rho := if option_type = OptType.CALL then rho_call else rho_put
    let vanna := d1_val * gamma
    let charm := -P.pdf d1_val * ((2 * r * T - d2_val * sigma * P.sqrt T) / (2 * T))
    some ⟨delta, gamma, vega, theta, rho, vanna, charm⟩

/-- The market price selected by `grok.process_row`:
`row.get("mid") or row.get("mark") or row.get("last")`. -/
def market_price (row : InputRow) : Option ℚ :=
  pyOr row.mid (pyOr row.mark row.last)

/-- `grok.process_row`: extract the fields, reject any missing or
non-positive required input, then Newton-solve and compute Greeks.  The
`np.isnan(iv)` rejection of the source is subsumed by the `none` case of
`implied_volatility`. -/
def process_row (P : RealPrims) (row : InputRow) (_today : Int) :
    Option ProcessedRow :=
  match row.spotPrice, row.strikePrice, row.T, row.SOFR,
      market_price row, row.putCall with
  | some S, some K, some T, some r, some mp, some option_type =>
      if S ≤ 0 ∨ K ≤ 0 ∨ T ≤ 0 ∨ r ≤ 0 ∨ mp ≤ 0 then none
      else
        match implied_volatility P mp S K T r option_type with
        | none => none
        | some iv =>
          match calculate_greeks P S K T r iv option_type with
          | none => none
          | some greeks => some ⟨iv, greeks, row.expirationDate⟩
  | _, _, _, _, _, _ => none

end SchwabGUI.Grok

namespace SchwabGUI

/-- The two identically-written market-price selections of `grok.py` and
`hybrid_one.py` agree. -/
theorem grok_hybrid_market_price_eq (row : InputRow) :
    Grok.market_price row = HybridOne.market_price row := rfl

end SchwabGUI

open SchwabGUI in
/-- C2 (counterexample): a call contract with spot 110, strike 100, time
to expiry 0, rate 0 and market price 5 has `0 < 5 ≤ intrinsic value 10`,
yet the bracketing strategy (`brent_bs.calculate_implied_volatility`)
returns `None` — not `0.0`: it has no intrinsic-value shortcut and fails
its non-positive-input guard here. -/
theorem C2_brent_returns_none_at_intrinsic :
    BrentBS.calculate_implied_volatility trivPrims 5 110 100 0 0 OptType.CALL
      = none ∧
    (0 : ℚ) < 5 ∧ (5 : ℚ) ≤ HybridOne.intrinsicValue OptType.CALL 110 100 := by
  refine ⟨?_, by norm_num, ?_⟩
  · rw [BrentBS.calculate_implied_volatility, if_pos]
    exact Or.inr (Or.inr (Or.inl le_rfl))
  · rw [HybridOne.intrinsicValue]
    norm_num

open SchwabGUI in
/-- C2 (amended): for every contract with positive spot, strike and time
to expiry whose observed market price is positive but at or below the
intrinsic value, the closed-form strategy (`hybrid_one.closed_form_iv`)
returns exactly `0.0` — never a failure and never a negative value; the
bracketing and derivative-guided strategies do not implement this edge
policy and may fail instead. -/
theorem C2_closed_form_iv_zero_at_intrinsic (P : RealPrims)
    (S K T r observed_price : ℚ) (option_type : OptType)
    (hS : 0 < S) (hK : 0 < K) (hT : 0 < T) (hobs : 0 < observed_price)
    (hint : observed_price ≤ HybridOne.intrinsicValue option_type S K) :
    HybridOne.closed_form_iv P S K T r option_type observed_price = some 0 := by
  rw [HybridOne.closed_form_iv,
    if_neg (by push_neg; exact ⟨hobs, hS, hK, hT⟩), if_pos hint]

open SchwabGUI in
/-- Witness for C2 (amended): a call with spot 110, strike 100, `T = 1`,
rate 0 and market price 5 — at or below the intrinsic value 10 — gets
implied volatility exactly `0.0` from the closed form. -/
theorem C2_closed_form_iv_zero_at_intrinsic_witness :
    HybridOne.closed_form_iv trivPrims 110 100 1 0 OptType.CALL 5 = some 0 :=
  C2_closed_form_iv_zero_at_intrinsic trivPrims 110 100 1 0 5 OptType.CALL
    (by norm_num) (by norm_num) (by norm_num) (by norm_num)
    (by rw [HybridOne.intrinsicValue]; norm_num)

open SchwabGUI in
/-- C3 (counterexample): on a row whose `mid` is `3` and whose `last` is
`7`, the `brent_bs` variant uses market price `7` (it reads only the
`last` column), not the first available of mid/mark/last, which is `3`. -/
theorem C3_brent_ignores_mid_and_mark :
    BrentBS.marketPrice
      ⟨0, some 100, some 100, some 1, some 1, some 3, none, some 7, none,
        some OptType.CALL⟩ = some 7 ∧
    specFirstAvailable
      ⟨0, some 100, some 100, some 1, some 1, some 3, none, some 7, none,
        some OptType.CALL⟩ = some 3 ∧
    some (7 : ℚ) ≠ some (3 : ℚ) := by
  refine ⟨rfl, rfl, by norm_num⟩

open SchwabGUI in
/-- C3 (amended): the `grok` and `hybrid_one` variants select the market
price by the Python chain `mid or mark or last`, which equals the first
available of mid/mark/last whenever the present mid/mark values are
nonzero (Python `or` also skips a present-but-zero value); the `brent_bs`
variant instead always uses the `last` field. -/
theorem C3_market_price_selection_amended (row : InputRow)
    (hmid : ∀ x, row.mid = some x → x ≠ 0)
    (hmark : ∀ x, row.mark = some x → x ≠ 0) :
    Grok.market_price row = specFirstAvailable row ∧
    HybridOne.market_price row = specFirstAvailable row ∧
    BrentBS.marketPrice row = row.last := by
  have hsel : Grok.market_price row = specFirstAvailable row := by
    rw [Grok.market_price, specFirstAvailable]
    cases hm : row.mid with
    | some x =>
        have hx : x ≠ 0 := hmid x hm
        simp [pyOr, pyTruthy, hx]
    | none =>
        cases hk : row.mark with
        | some y =>
            have hy : y ≠ 0 := hmark y hk
            simp [pyOr, pyTruthy, hy]
        | none => simp [pyOr, pyTruthy]
  exact ⟨hsel, (grok_hybrid_market_price_eq row) ▸ hsel, rfl⟩

open SchwabGUI in
/-- Witness for C3 (amended): on a row with `mid = 3`, `mark = 4`,
`last = 5`, both chains pick `3` and `brent_bs` picks `5`. -/
theorem C3_market_price_selection_amended_witness :
    Grok.market_price
      ⟨0, none, none, none, none, some 3, some 4, some 5, none, none⟩ =
      specFirstAvailable
        ⟨0, none, none, none, none, some 3, some 4, some 5, none, none⟩ ∧
    HybridOne.market_price
      ⟨0, none, none, none, none, some 3, some 4, some 5, none, none⟩ =
      specFirstAvailable
        ⟨0, none, none, none, none, some 3, some 4, some 5, none, none⟩ ∧
    BrentBS.marketPrice
      ⟨0, none, none, none, none, some 3, some 4, some 5, none, none⟩ =
      (⟨0, none, none, none, none, some 3, some 4, some 5, none, none⟩ :
        InputRow).last :=
  C3_market_price_selection_amended
    ⟨0, none, none, none, none, some 3, some 4, some 5, none, none⟩
    (by intro x hx; cases hx; norm_num)
    (by intro x hx; cases hx; norm_num)

open SchwabGUI in
/-- C5 (code bug, evaluated at the failing input): for a PUT with
`S = 110 > K = 100`, `T = 5e-7 < 1e-6` and `sigma = 0.2`, the code's
chained conditional yields `delta = +1.0` — the spec says a near-expiry
out-of-the-money put has `delta = 0` — while `gamma` is clamped to `1e-5`
as specified. -/
theorem C5_near_expiry_put_delta_is_one :
    (BrentBS.calculate_greeks trivPrims 110 100 (1/2000000) 0 (1/5)
        OptType.PUT).delta = some 1 ∧
    (BrentBS.calculate_greeks trivPrims 110 100 (1/2000000) 0 (1/5)
        OptType.PUT).gamma = some (1/100000) ∧
    (0 : ℚ) < 1/2000000 ∧ (1/2000000 : ℚ) < 1/1000000 := by
  refine ⟨?_, ?_, by norm_num, by norm_num⟩ <;>
    norm_num [BrentBS.calculate_greeks, BrentBS.noneGreeks]

open SchwabGUI in
/-- C9 (confirmed): a non-positive selected market price is rejected by
all three strategies: `brent_bs.calculate_implied_volatility` returns
`None`, and `grok.process_row` / `hybrid_one.process_row` skip the row. -/
theorem C9_nonpositive_market_price_fails (P : RealPrims) (row : InputRow)
    (today : Int) (S K T r mp : ℚ) (option_type : OptType)
    (hmp : mp ≤ 0) (hrow : Grok.market_price row = some mp) :
    BrentBS.calculate_implied_volatility P mp S K T r option_type = none ∧
    Grok.process_row P row today = none ∧
    HybridOne.process_row P row today = none := by
  have hrow2 : HybridOne.market_price row = some mp := hrow
  refine ⟨?_, ?_, ?_⟩
  · rw [BrentBS.calculate_implied_volatility,
      if_pos (Or.inr (Or.inr (Or.inr hmp)))]
  · cases hS : row.spotPrice <;> cases hK : row.strikePrice <;>
      cases hT : row.T <;> cases hr : row.SOFR <;> cases hot : row.putCall <;>
      simp [Grok.process_row, hS, hK, hT, hr, hot, hrow, hmp]
  · cases hS : row.spotPrice <;> cases hK : row.strikePrice <;>
      cases hT : row.T <;> cases hr : row.SOFR <;> cases hot : row.putCall <;>
      simp [HybridOne.process_row, hS, hK, hT, hr, hot, hrow2, hmp]

open SchwabGUI in
/-- Witness for C9: a row whose selected market price is `-1` is rejected
by all three strategies. -/
theorem C9_nonpositive_market_price_fails_witness :
    BrentBS.calculate_implied_volatility trivPrims (-1) 100 100 1 1
      OptType.CALL = none ∧
    Grok.process_row trivPrims
      ⟨0, some 100, some 100, some 1, some 1, some (-1), none, none, none,
        some OptType.CALL⟩ 0 = none ∧
    HybridOne.process_row trivPrims
      ⟨0, some 100, some 100, some 1, some 1, some (-1), none, none, none,
        some OptType.CALL⟩ 0 = none :=
  C9_nonpositive_market_price_fails trivPrims
    ⟨0, some 100, some 100, some 1, some 1, some (-1), none, none, none,
      some OptType.CALL⟩ 0 100 100 1 1 (-1) OptType.CALL
    (by norm_num)
    (by simp [Grok.market_price, pyOr, pyTruthy])

namespace SchwabGUI.AbsoExpo

/-!
## `processing/exposure_calculations/abso_expo.py` — exposure calculation

`calculate_exposures` operates column-wise on the DataFrame; it is
modelled row-wise here (each output cell depends only on its own row).
-/

open SchwabGUI

/-- One row of an IV-method result file, with the columns
`calculate_exposures` requires. -/
structure ExpoInputRow where
  delta : ℚ
  gamma : ℚ
  vanna : ℚ
  charm : ℚ
  spotPrice : ℚ
  openInterest : ℚ
  impliedVolatility : ℚ
  putCall : OptType
deriving DecidableEq, Repr

/-- The four exposure columns produced by `calculate_exposures`. -/
structure Exposures where
  DEX : ℚ
  GEX : ℚ
  VEX : ℚ
  CEX : ℚ
deriving DecidableEq, Repr

/-- `abso_expo.calculate_exposures`, one row: each exposure is the dollar
product, scaled to millions and rounded to 3 decimals; GEX is negated for
puts after the rounding. -/
def calculate_exposures_row (row : ExpoInputRow) : Exposures :=
  let dex := round3 (row.delta * row.openInterest * row.spotPrice / 1000000)
  let gex0 := round3 (row.gamma * row.openInterest * row.spotPrice ^ 2 * 100 / 1000000)
  let gex := if row.putCall = OptType.PUT then -gex0 else gex0
  let vex := round3 (row.vanna * row.openInterest * row.spotPrice
    * row.impliedVolatility / 1000000)
  let cex := round3 (row.charm * row.openInterest * row.spotPrice * 365 / 1000000)
  ⟨dex, gex, vex, cex⟩

theorem round3_zero : round3 0 = 0 := by
  norm_num [round3, roundHalfEven]

end SchwabGUI.AbsoExpo

open SchwabGUI SchwabGUI.AbsoExpo in
/-- C7 (confirmed): whenever `openInterest` is `0`, all four exposures
DEX, GEX, VEX, CEX are exactly `0`, regardless of delta, gamma, vanna,
charm, spot price, implied volatility and option type. -/
theorem C7_zero_open_interest_zero_exposures (row : ExpoInputRow)
    (h : row.openInterest = 0) :
    (calculate_exposures_row row).DEX = 0 ∧
    (calculate_exposures_row row).GEX = 0 ∧
    (calculate_exposures_row row).VEX = 0 ∧
    (calculate_exposures_row row).CEX = 0 := by
  refine ⟨?_, ?_, ?_, ?_⟩ <;>
    simp [calculate_exposures_row, h, round3_zero, mul_comm, mul_assoc,
      mul_left_comm]

open SchwabGUI SchwabGUI.AbsoExpo in
/-- Witness for C7: a put row with `openInterest = 0` and nonzero Greeks
gets all four exposures `0`. -/
theorem C7_zero_open_interest_zero_exposures_witness :
    (calculate_exposures_row ⟨3, 4, 5, 6, 100, 0, 2, OptType.PUT⟩).DEX = 0 ∧
    (calculate_exposures_row ⟨3, 4, 5, 6, 100, 0, 2, OptType.PUT⟩).GEX = 0 ∧
    (calculate_exposures_row ⟨3, 4, 5, 6, 100, 0, 2, OptType.PUT⟩).VEX = 0 ∧
    (calculate_exposures_row ⟨3, 4, 5, 6, 100, 0, 2, OptType.PUT⟩).CEX = 0 :=
  C7_zero_open_interest_zero_exposures ⟨3, 4, 5, 6, 100, 0, 2, OptType.PUT⟩ rfl

namespace SchwabGUI.Ranking

/-!
## `processing/exposure_calculations/ranking.py` — ranking engine

`rank_exposures(df, exposure_column, top_n=5)` aggregates one exposure
column by strike (`groupby("strikePrice").sum()`, ascending keys), sorts
the aggregate descending by value, labels the first `top_n` rows
`"Call {col} {i+1}"` and the last `top_n` rows `"Put {col} {top_n - i}"`
positionally, and concatenates the two.  The ES multiplier comes from an
external workbook (`extract_es_multiplier`) and is a parameter here. -/

open SchwabGUI

/-- One output row of `rank_exposures` (columns
`strikePrice`, `Theo ES`, `Rank`, `Greek`, `Value`). -/
structure RankedRow where
  strikePrice : ℚ
  theoES : ℚ
  rank : String
  greek : String
  value : ℚ
deriving DecidableEq, Repr

/-- `ranking.calculate_theo_es`: theoretical ES price, rounded to the
nearest quarter point. -/
def calculate_theo_es (strike_price multiplier : ℚ) : ℚ :=
  roundQuarter (strike_price + strike_price * multiplier)

/-- `df.groupby("strikePrice")[col].sum()`: per-strike sums over the
distinct strikes in ascending key order. -/
def aggregateAsc (rows : List (ℚ × ℚ)) : List (ℚ × ℚ) :=
  (List.insertionSort (· ≤ ·) (rows.map Prod.fst).dedup).map
    (fun s => (s, ((rows.filter (fun r => r.1 = s)).map Prod.snd).sum))

/-- The descending-by-value order used by
`sort_values(by=exposure_column, ascending=False)`. -/
def valDesc (a b : ℚ × ℚ) : Prop := b.2 ≤ a.2

instance : DecidableRel valDesc := fun a b =>
  inferInstanceAs (Decidable (b.2 ≤ a.2))

instance : IsTotal (ℚ × ℚ) valDesc := ⟨fun a b => le_total b.2 a.2⟩

instance : IsTrans (ℚ × ℚ) valDesc := ⟨fun _ _ _ h1 h2 => le_trans h2 h1⟩

/-- The aggregate sorted descending by value. -/
def sortedByValueDesc (l : List (ℚ × ℚ)) : List (ℚ × ℚ) :=
  List.insertionSort valDesc l

/-- The rank-label strings of `rank_exposures`:
`f"Call {exposure_column} {i + 1}"` and
`f"Put {exposure_column} {top_n - i}"`. -/
def rankLabel (side exposure_column : String) (k : Nat) : String :=
  side ++ " " ++ exposure_column ++ " " ++ toString k

/-- The positional labelling of `top_levels`
(`[f"Call {col} {i + 1}" for i in range(len(top_levels))]`), starting at
position `i`. -/
def labelTopFrom (exposure_column : String) (multiplier : ℚ) (i : Nat) :
    List (ℚ × ℚ) → List RankedRow
  | [] => []
  | x :: t =>
      ⟨x.1, calculate_theo_es x.1 multiplier,
        rankLabel "Call" exposure_column (i + 1), exposure_column, x.2⟩ ::
      labelTopFrom exposure_column multiplier (i + 1) t

/-- The positional labelling of `bottom_levels`
(`[f"Put {col} {top_n - i}" for i in range(len(bottom_levels))]`),
starting at position `i`. -/
def labelBottomFrom (exposure_column : String) (multiplier : ℚ)
    (top_n : Nat) (i : Nat) : List (ℚ × ℚ) → List RankedRow
  | [] => []
  | x :: t =>
      ⟨x.1, calculate_theo_es x.1 multiplier,
        rankLabel "Put" exposure_column (top_n - i), exposure_column, x.2⟩ ::
      labelBottomFrom exposure_column multiplier top_n (i + 1) t

/-- `ranking.rank_exposures`: aggregate, sort descending,
`head(top_n)` and `tail(top_n)` (pandas `tail` is `drop (length - n)`),
label both and concatenate. -/
def rank_exposures (rows : List (ℚ × ℚ)) (exposure_column : String)
    (multiplier : ℚ) (top_n : Nat) : List RankedRow :=
  let aggregated := sortedByValueDesc (aggregateAsc rows)
  let top_levels := aggregated.take top_n
  let bottom_levels := aggregated.drop (aggregated.length - top_n)
  labelTopFrom exposure_column multiplier 0 top_levels ++
    labelBottomFrom exposure_column multiplier top_n 0 bottom_levels

end SchwabGUI.Ranking

namespace SchwabGUI.Ranking

/-! ### Helper lemmas about the ranking engine -/

theorem labelTopFrom_map_value (g : String) (m : ℚ) :
    ∀ (l : List (ℚ × ℚ)) (i : Nat),
      (labelTopFrom g m i l).map RankedRow.value = l.map Prod.snd
  | [], _ => rfl
  | x :: t, i => by
      rw [labelTopFrom, List.map_cons, List.map_cons,
        labelTopFrom_map_value g m t (i + 1)]

theorem labelBottomFrom_map_value (g : String) (m : ℚ) (n : Nat) :
    ∀ (l : List (ℚ × ℚ)) (i : Nat),
      (labelBottomFrom g m n i l).map RankedRow.value = l.map Prod.snd
  | [], _ => rfl
  | x :: t, i => by
      rw [labelBottomFrom, List.map_cons, List.map_cons,
        labelBottomFrom_map_value g m n t (i + 1)]

theorem rank_of_mem_labelTopFrom (g : String) (m : ℚ) :
    ∀ (l : List (ℚ × ℚ)) (i : Nat) (e : RankedRow),
      e ∈ labelTopFrom g m i l →
      ∃ j, j < l.length ∧ e.rank = rankLabel "Call" g (i + j + 1)
  | [], _, _, h => by simp [labelTopFrom] at h
  | x :: t, i, e, h => by
      rw [labelTopFrom] at h
      rcases List.mem_cons.1 h with h | h
      · exact ⟨0, by simp, by rw [h]⟩
      · obtain ⟨j, hj, hr⟩ := rank_of_mem_labelTopFrom g m t (i + 1) e h
        exact ⟨j + 1, by simpa using Nat.succ_lt_succ hj,
          by rw [hr]; congr 1; omega⟩

theorem rank_of_mem_labelBottomFrom (g : String) (m : ℚ) (n : Nat) :
    ∀ (l : List (ℚ × ℚ)) (i : Nat) (e : RankedRow),
      e ∈ labelBottomFrom g m n i l →
      ∃ j, j < l.length ∧ e.rank = rankLabel "Put" g (n - (i + j))
  | [], _, _, h => by simp [labelBottomFrom] at h
  | x :: t, i, e, h => by
      rw [labelBottomFrom] at h
      rcases List.mem_cons.1 h with h | h
      · exact ⟨0, by simp, by rw [h]; rfl⟩
      · obtain ⟨j, hj, hr⟩ := rank_of_mem_labelBottomFrom g m n t (i + 1) e h
        exact ⟨j + 1, by simpa using Nat.succ_lt_succ hj,
          by rw [hr]; congr 1; omega⟩

theorem mem_labelTopFrom_of_mem (g : String) (m : ℚ) :
    ∀ (l : List (ℚ × ℚ)) (i : Nat) (x : ℚ × ℚ), x ∈ l →
      ∃ e ∈ labelTopFrom g m i l, e.strikePrice = x.1 ∧ e.greek = g ∧
        ∃ k, e.rank = rankLabel "Call" g k
  | [], _, _, hx => absurd hx (List.not_mem_nil _)
  | y :: t, i, x, hx => by
      rcases List.mem_cons.1 hx with h | h
      · subst h
        exact ⟨⟨x.1, calculate_theo_es x.1 m, rankLabel "Call" g (i + 1), g, x.2⟩,
          by rw [labelTopFrom]; exact List.mem_cons_self _ _,
          rfl, rfl, i + 1, rfl⟩
      · obtain ⟨e, he, hs, hg, k, hk⟩ := mem_labelTopFrom_of_mem g m t (i + 1) x h
        exact ⟨e, by rw [labelTopFrom]; exact List.mem_cons_of_mem _ he,
          hs, hg, k, hk⟩

theorem mem_labelBottomFrom_of_mem (g : String) (m : ℚ) (n : Nat) :
    ∀ (l : List (ℚ × ℚ)) (i : Nat) (x : ℚ × ℚ), x ∈ l →
      ∃ e ∈ labelBottomFrom g m n i l, e.strikePrice = x.1 ∧ e.greek = g ∧
        ∃ k, e.rank = rankLabel "Put" g k
  | [], _, _, hx => absurd hx (List.not_mem_nil _)
  | y :: t, i, x, hx => by
      rcases List.mem_cons.1 hx with h | h
      · subst h
        exact ⟨⟨x.1, calculate_theo_es x.1 m, rankLabel "Put" g (n - i), g, x.2⟩,
          by rw [labelBottomFrom]; exact List.mem_cons_self _ _,
          rfl, rfl, n - i, rfl⟩
      · obtain ⟨e, he, hs, hg, k, hk⟩ := mem_labelBottomFrom_of_mem g m n t (i + 1) x h
        exact ⟨e, by rw [labelBottomFrom]; exact List.mem_cons_of_mem _ he,
          hs, hg, k, hk⟩

/-- A `"Call …"` rank label is never equal to a `"Put …"` rank label. -/
theorem rankLabel_call_ne_put (g h : String) (a b : Nat) :
    rankLabel "Call" g a ≠ rankLabel "Put" h b := by
  intro heq
  have hd := congrArg (fun s => s.data.head?) heq
  simp [rankLabel, String.data_append, List.cons_append, List.head?_cons] at hd

end SchwabGUI.Ranking

open SchwabGUI SchwabGUI.Ranking in
/-- C8 (confirmed): for a per-strike exposure series with 10 distinct
strikes and `top_n = 5`, the sorted aggregate splits into the 5 largest
values (the positive bucket, descending) followed by the 5 smallest (the
negative bucket, descending, each at most every positive-bucket value);
the ranked output carries exactly these values, and every rank label has
the form `"{Side} {Greek} {k}"` with Side `Call` or `Put` and `k ∈ 1..5`. -/
theorem C8_rank_top5_bottom5 (rows : List (ℚ × ℚ)) (g : String) (mult : ℚ)
    (hlen : (aggregateAsc rows).length = 10) :
    (sortedByValueDesc (aggregateAsc rows)).Perm (aggregateAsc rows) ∧
    ((sortedByValueDesc (aggregateAsc rows)).take 5).length = 5 ∧
    ((sortedByValueDesc (aggregateAsc rows)).drop 5).length = 5 ∧
    List.Pairwise valDesc ((sortedByValueDesc (aggregateAsc rows)).take 5) ∧
    List.Pairwise valDesc ((sortedByValueDesc (aggregateAsc rows)).drop 5) ∧
    (∀ a ∈ (sortedByValueDesc (aggregateAsc rows)).take 5,
      ∀ b ∈ (sortedByValueDesc (aggregateAsc rows)).drop 5, b.2 ≤ a.2) ∧
    (rank_exposures rows g mult 5).map RankedRow.value =
      ((sortedByValueDesc (aggregateAsc rows)).take 5).map Prod.snd ++
        ((sortedByValueDesc (aggregateAsc rows)).drop 5).map Prod.snd ∧
    (∀ e ∈ rank_exposures rows g mult 5, ∃ k, 1 ≤ k ∧ k ≤ 5 ∧
      (e.rank = rankLabel "Call" g k ∨ e.rank = rankLabel "Put" g k)) := by
  have hperm : (sortedByValueDesc (aggregateAsc rows)).Perm (aggregateAsc rows) :=
    List.perm_insertionSort valDesc (aggregateAsc rows)
  have hlen' : (sortedByValueDesc (aggregateAsc rows)).length = 10 :=
    hperm.length_eq.trans hlen
  have hsorted : List.Pairwise valDesc (sortedByValueDesc (aggregateAsc rows)) :=
    List.sorted_insertionSort valDesc (aggregateAsc rows)
  have hsplit := hsorted
  rw [← List.take_append_drop 5 (sortedByValueDesc (aggregateAsc rows))] at hsplit
  obtain ⟨h1, h2, h3⟩ := List.pairwise_append.1 hsplit
  have hre : rank_exposures rows g mult 5 =
      labelTopFrom g mult 0 ((sortedByValueDesc (aggregateAsc rows)).take 5) ++
      labelBottomFrom g mult 5 0 ((sortedByValueDesc (aggregateAsc rows)).drop 5) := by
    rw [rank_exposures, hlen']
  refine ⟨hperm, ?_, ?_, h1, h2, fun a ha b hb => h3 a ha b hb, ?_, ?_⟩
  · rw [List.length_take, hlen']; decide
  · rw [List.length_drop, hlen']
  · rw [hre, List.map_append, labelTopFrom_map_value, labelBottomFrom_map_value]
  · intro e he
    rw [hre] at he
    rcases List.mem_append.1 he with h | h
    · obtain ⟨j, hj, hr⟩ := rank_of_mem_labelTopFrom g mult _ 0 e h
      rw [List.length_take, hlen'] at hj
      exact ⟨0 + j + 1, by omega, by omega, Or.inl hr⟩
    · obtain ⟨j, hj, hr⟩ := rank_of_mem_labelBottomFrom g mult 5 _ 0 e h
      rw [List.length_drop, hlen'] at hj
      exact ⟨5 - (0 + j), by omega, by omega, Or.inr hr⟩

open SchwabGUI SchwabGUI.Ranking in
/-- Witness for C8: ten rows with distinct strikes `1..10` discharge the
length hypothesis; the sorted aggregate is a permutation of the
aggregate. -/
theorem C8_rank_top5_bottom5_witness :
    (sortedByValueDesc (aggregateAsc
      [(1, 5), (2, -3), (3, 7), (4, -9), (5, 2), (6, 11), (7, -1), (8, 4),
        (9, -6), (10, 8)])).Perm (aggregateAsc
      [(1, 5), (2, -3), (3, 7), (4, -9), (5, 2), (6, 11), (7, -1), (8, 4),
        (9, -6), (10, 8)]) :=
  (C8_rank_top5_bottom5
      [(1, 5), (2, -3), (3, 7), (4, -9), (5, 2), (6, 11), (7, -1), (8, 4),
        (9, -6), (10, 8)] "GEX" 0
      (by norm_num [aggregateAsc, List.insertionSort, List.orderedInsert,
        List.dedup, List.pwFilter, List.filter])).1

namespace SchwabGUI.Ranking

/-- The strikes of the aggregate are pairwise distinct (groupby keys). -/
theorem aggregateAsc_keys_nodup (rows : List (ℚ × ℚ)) :
    ((aggregateAsc rows).map Prod.fst).Nodup := by
  rw [aggregateAsc, List.map_map]
  have hid : (Prod.fst ∘ fun s : ℚ =>
      (s, ((rows.filter (fun r => r.1 = s)).map Prod.snd).sum)) = fun s => s := rfl
  rw [hid, List.map_id']
  exact (List.perm_insertionSort (· ≤ ·) _).nodup_iff.mpr (List.nodup_dedup _)

/-- The strikes of the value-sorted aggregate are pairwise distinct. -/
theorem sortedByValueDesc_keys_nodup (rows : List (ℚ × ℚ)) :
    ((sortedByValueDesc (aggregateAsc rows)).map Prod.fst).Nodup :=
  ((List.perm_insertionSort valDesc (aggregateAsc rows)).map Prod.fst).nodup_iff.mpr
    (aggregateAsc_keys_nodup rows)

end SchwabGUI.Ranking

open SchwabGUI SchwabGUI.Ranking in
/-- C10 (confirmed): when the number `M` of distinct strikes is below
`2 * top_n`, the `head(top_n)` and `tail(top_n)` buckets of
`rank_exposures` overlap on `min top_n M - (M - top_n)` strikes — that is
`2*top_n - M` strikes when `top_n ≤ M`, and all `M` strikes when
`M < top_n` — and each such strike occurs twice in the combined ranked
output for the same Greek, once with a `Call` label and once with a
different `Put` label. -/
theorem C10_rank_buckets_overlap (rows : List (ℚ × ℚ)) (g : String)
    (mult : ℚ) (n : Nat)
    (hM1 : 1 ≤ (aggregateAsc rows).length)
    (hM2 : (aggregateAsc rows).length < 2 * n) :
    ∃ common : List ℚ,
      common.Nodup ∧
      common.length =
        min n (aggregateAsc rows).length - ((aggregateAsc rows).length - n) ∧
      (n ≤ (aggregateAsc rows).length →
        common.length = 2 * n - (aggregateAsc rows).length) ∧
      ((aggregateAsc rows).length < n →
        common.length = (aggregateAsc rows).length) ∧
      ∀ s ∈ common,
        ∃ e1 ∈ rank_exposures rows g mult n,
        ∃ e2 ∈ rank_exposures rows g mult n,
          e1.strikePrice = s ∧ e2.strikePrice = s ∧
          e1.greek = e2.greek ∧ e1.rank ≠ e2.rank := by
  set srt := sortedByValueDesc (aggregateAsc rows) with hsrt
  set M := (aggregateAsc rows).length with hM
  have hlen : srt.length = M :=
    (List.perm_insertionSort valDesc (aggregateAsc rows)).length_eq
  set seg := (srt.drop (M - n)).take (n - (M - n)) with hseg
  have hsegsub : List.Sublist seg srt := (List.take_sublist _ _).trans (List.drop_sublist _ _)
  have hseglen : seg.length = min n M - (M - n) := by
    rw [hseg, List.length_take, List.length_drop, hlen]
    omega
  have htake : srt.take n = srt.take (M - n) ++ seg := by
    rw [hseg, ← List.take_add]
    congr 1
    omega
  have hre : rank_exposures rows g mult n =
      labelTopFrom g mult 0 (srt.take n) ++
        labelBottomFrom g mult n 0 (srt.drop (M - n)) := by
    rw [rank_exposures, hlen]
  refine ⟨seg.map Prod.fst, ?_, ?_, ?_, ?_, ?_⟩
  · exact (sortedByValueDesc_keys_nodup rows).sublist (hsegsub.map Prod.fst)
  · rw [List.length_map, hseglen]
  · intro h
    rw [List.length_map, hseglen]
    omega
  · intro h
    rw [List.length_map, hseglen]
    omega
  · intro s hs
    obtain ⟨x, hx, hxs⟩ := List.mem_map.1 hs
    have hxtop : x ∈ srt.take n := by
      rw [htake]
      exact List.mem_append_right _ hx
    have hxbot : x ∈ srt.drop (M - n) := (List.take_sublist _ _).mem hx
    obtain ⟨e1, he1, hs1, hg1, k1, hk1⟩ :=
      mem_labelTopFrom_of_mem g mult (srt.take n) 0 x hxtop
    obtain ⟨e2, he2, hs2, hg2, k2, hk2⟩ :=
      mem_labelBottomFrom_of_mem g mult n (srt.drop (M - n)) 0 x hxbot
    refine ⟨e1, ?_, e2, ?_, ?_, ?_, ?_, ?_⟩
    · rw [hre]; exact List.mem_append_left _ he1
    · rw [hre]; exact List.mem_append_right _ he2
    · rw [hs1, hxs]
    · rw [hs2, hxs]
    · rw [hg1, hg2]
    · rw [hk1, hk2]
      exact rankLabel_call_ne_put g g k1 k2

open SchwabGUI SchwabGUI.Ranking in
/-- Witness for C10: three distinct strikes with `top_n = 5` — both
buckets contain all three strikes, each ranked twice with different
labels. -/
theorem C10_rank_buckets_overlap_witness :
    ∃ common : List ℚ,
      common.Nodup ∧
      common.length =
        min 5 (aggregateAsc [(1, 5), (2, -3), (3, 7)]).length -
          ((aggregateAsc [(1, 5), (2, -3), (3, 7)]).length - 5) ∧
      (5 ≤ (aggregateAsc [(1, 5), (2, -3), (3, 7)]).length →
        common.length = 2 * 5 - (aggregateAsc [(1, 5), (2, -3), (3, 7)]).length) ∧
      ((aggregateAsc [(1, 5), (2, -3), (3, 7)]).length < 5 →
        common.length = (aggregateAsc [(1, 5), (2, -3), (3, 7)]).length) ∧
      ∀ s ∈ common,
        ∃ e1 ∈ rank_exposures [(1, 5), (2, -3), (3, 7)] "GEX" 0 5,
        ∃ e2 ∈ rank_exposures [(1, 5), (2, -3), (3, 7)] "GEX" 0 5,
          e1.strikePrice = s ∧ e2.strikePrice = s ∧
          e1.greek = e2.greek ∧ e1.rank ≠ e2.rank :=
  C10_rank_buckets_overlap [(1, 5), (2, -3), (3, 7)] "GEX" 0 5
    (by norm_num [aggregateAsc, List.insertionSort, List.orderedInsert,
      List.dedup, List.pwFilter, List.filter])
    (by norm_num [aggregateAsc, List.insertionSort, List.orderedInsert,
      List.dedup, List.pwFilter, List.filter])
